import Mathlib

set_option maxRecDepth 16384

/-!
Verification development for the Enroll-Ease chatbot (src/main.py).

The Python program is a Streamlit retrieval-augmented-generation app.  This
file gives a shallow embedding of its data model and operations:

* the text splitter (RecursiveCharacterTextSplitter with the parameters the
  program passes), modelled at the character-list level following the
  external library algorithm: recursive separator descent, keeping the
  separator attached to the following piece, greedy merging with an overlap
  window, whitespace stripping of emitted chunks;
* the embedding / FAISS index / chain plumbing, with every external effect
  (PDF parsing, embedding server, hosted LLM) supplied by an explicit
  environment record so that all definitions stay executable;
* the Streamlit session-state machine of run_streamlit, as a step function
  over an explicit state record, one step per script run.
-/

namespace EnrollEase

/-- A langchain document: page content plus metadata (modelled as an
association list, enough for the claims, which never inspect metadata). -/
structure Document where
  pageContent : String
  metadata : List (String × String)
  deriving DecidableEq

/-- Total character length of a list of strings. -/
def sumLen (l : List String) : Nat := (l.map String.length).sum

/-- Concatenation of a list of strings (Python join with the empty
separator, which is what the splitter uses since keep_separator is true). -/
def concatAll : List String → String
  | [] => ""
  | s :: r => s ++ concatAll r

/-- Python str.strip whitespace set: space, tab, newline, carriage return,
vertical tab, form feed. -/
def pyIsSpace (c : Char) : Bool :=
  c == ' ' || c == '\t' || c == '\n' || c == '\r' || c == '\x0b' || c == '\x0c'

/-- Python str.strip: drop leading and trailing whitespace. -/
def pyStrip (s : String) : String :=
  String.mk (((s.data.dropWhile pyIsSpace).reverse.dropWhile pyIsSpace).reverse)

/-- The merge loop of the library splitter pops splits from the front of the
current window while the running total exceeds the overlap budget, or while
the incoming split would overflow the chunk size.  dl is the length of the
incoming split. -/
def popWindow (co cs dl : Nat) : List String → List String
  | [] => []
  | x :: xs =>
    if sumLen (x :: xs) > co ∨ (sumLen (x :: xs) + dl > cs ∧ sumLen (x :: xs) > 0) then
      popWindow co cs dl xs
    else x :: xs

/-- The windows (lists of splits) successively emitted by the merge loop of
the library splitter, starting from the window cur.  A window is emitted
when the next split would overflow the chunk size; the final window is
always emitted. -/
def mergeWindows (cs co : Nat) : List String → List String → List (List String)
  | cur, [] => [cur]
  | cur, d :: ds =>
    if sumLen cur + d.length > cs ∧ cur ≠ [] then
      cur :: mergeWindows cs co (popWindow co cs d.length cur ++ [d]) ds
    else
      mergeWindows cs co (cur ++ [d]) ds

/-- The merge step of the library splitter: emit windows, join each with the
empty separator, strip whitespace, and drop chunks that became empty. -/
def mergeSplits (cs co : Nat) (splits : List String) : List String :=
  ((mergeWindows cs co [] splits).map fun w => pyStrip (concatAll w)).filter
    fun s => !(s == "")

/-- Splitting a text at the empty separator: the list of its characters as
one-character strings. -/
def charSplit (text : String) : List String :=
  text.data.map fun c => String.mk [c]

/-- Split a character list at every occurrence of the pattern sep, the
occurrences themselves removed (model of re.split on an escaped literal).
The fuel argument, called with the length of the text, makes the recursion
structural: each step consumes at least one character, so the fuel never
runs out on the intended calls. -/
def splitOnAux (sep : List Char) : Nat → List Char → List Char → List (List Char)
  | 0, acc, rest => [acc.reverse ++ rest]
  | _ + 1, acc, [] => [acc.reverse]
  | fuel + 1, acc, c :: rest =>
    if sep ≠ [] ∧ sep.isPrefixOf (c :: rest) then
      acc.reverse :: splitOnAux sep fuel [] (List.drop sep.length (c :: rest))
    else
      splitOnAux sep fuel (c :: acc) rest

/-- Split a character list by a separator pattern (whole text when the
separator is empty; the empty-separator case is handled by charSplit in the
splitter itself). -/
def splitOnChars (sep text : List Char) : List (List Char) :=
  if sep = [] then [text] else splitOnAux sep text.length [] text

/-- The library split with keep_separator: the separator is re-attached to
the front of the piece that follows it, and empty pieces are dropped. -/
def splitKeepSep (sep text : String) : List String :=
  match splitOnChars sep.data text.data with
  | [] => []
  | t0 :: ts =>
    (String.mk t0 :: ts.map fun t => String.mk (sep.data ++ t)).filter
      fun s => !(s == "")

/-- Whether a pattern occurs as a contiguous sublist. -/
def occursInChars (sep : List Char) : List Char → Bool
  | [] => sep.isPrefixOf []
  | c :: rest => sep.isPrefixOf (c :: rest) || occursInChars sep rest

/-- Whether the separator occurs in the text (the Python test sep in text). -/
def occursIn (sep text : String) : Bool :=
  occursInChars sep.data text.data

/-- The per-separator pass of the library splitter: pieces shorter than the
chunk size are collected and merged; longer pieces are split further by f
(the recursive call on the remaining separators) or kept whole when no
separators remain. -/
def gather (cs co : Nat) (f : Option (String → List String)) :
    List String → List String → List String
  | good, [] => if good = [] then [] else mergeSplits cs co good
  | good, p :: ps =>
    if p.length < cs then gather cs co f (good ++ [p]) ps
    else
      (if good = [] then [] else mergeSplits cs co good)
        ++ (match f with | none => [p] | some g => g p)
        ++ gather cs co f [] ps

/-- The recursive splitter: try each separator in order, use the first one
occurring in the text (the empty separator splits into characters), and
recurse on the remaining separators for oversized pieces. -/
def splitText (cs co : Nat) : List String → String → List String
  | [] => fun text => [text]
  | sep :: rest => fun text =>
    if sep = "" then mergeSplits cs co (charSplit text)
    else if occursIn sep text then
      gather cs co (if rest = [] then none else some (splitText cs co rest)) []
        (splitKeepSep sep text)
    else if rest = [] then [text]
    else splitText cs co rest text

/-- Default separator list of RecursiveCharacterTextSplitter. -/
def defaultSeparators : List String := ["\n\n", "\n", " ", ""]

/-- The splitter object: only the two parameters the program passes. -/
structure RecursiveCharacterTextSplitter where
  chunk_size : Nat
  chunk_overlap : Nat
  deriving DecidableEq

/-- split_text of the library splitter with the default separators. -/
def RecursiveCharacterTextSplitter.split_text
    (ts : RecursiveCharacterTextSplitter) (text : String) : List String :=
  splitText ts.chunk_size ts.chunk_overlap defaultSeparators text

/-- split_documents of the library splitter: split each page content and
copy the metadata onto every chunk. -/
def RecursiveCharacterTextSplitter.split_documents
    (ts : RecursiveCharacterTextSplitter) (docs : List Document) : List Document :=
  docs.flatMap fun doc =>
    (ts.split_text doc.pageContent).map fun chunk =>
      {pageContent := chunk, metadata := doc.metadata}

/-- split_documents of src/main.py: a RecursiveCharacterTextSplitter with
chunk_size 1000 and chunk_overlap 200, applied to the loaded documents. -/
def split_documents (docs : List Document) : List Document :=
  let text_splitter : RecursiveCharacterTextSplitter :=
    {chunk_size := 1000, chunk_overlap := 200}
  text_splitter.split_documents docs

/-- The Ollama embeddings client, modelled as the two functions the external
embedding server implements. -/
structure OllamaEmbeddings where
  embedQuery : String → List Int
  embedDocuments : List String → List (List Int)

/-- A FAISS vector store: the indexed documents, their embedding vectors,
and the embedding client used for queries. -/
structure FAISS where
  docs : List Document
  index : List (List Int)
  embeddings : OllamaEmbeddings

/-- FAISS.from_documents: embed the page contents and store documents,
vectors and the embedding client. -/
def FAISS.from_documents (documents : List Document)
    (embeddings : OllamaEmbeddings) : FAISS :=
  {docs := documents,
   index := embeddings.embedDocuments (documents.map Document.pageContent),
   embeddings := embeddings}

/-- Squared euclidean distance on (models of) embedding vectors. -/
def sqDist (u v : List Int) : Int :=
  ((u.zip v).map fun p => (p.1 - p.2) * (p.1 - p.2)).sum

/-- FAISS similarity search: the k stored documents closest to the embedded
query. -/
def FAISS.similarity_search (db : FAISS) (query : String) (k : Nat) :
    List Document :=
  let qv := db.embeddings.embedQuery query
  (((db.docs.zip db.index).insertionSort
      fun a b => sqDist a.2 qv ≤ sqDist b.2 qv).map Prod.fst).take k

/-- db.as_retriever(): a retriever returning the top 4 documents for a
query (the langchain default k). -/
def FAISS.as_retriever (db : FAISS) : String → List Document :=
  fun query => db.similarity_search query 4

/-- The external world of the program: the PDF parser, the embedding
server, the environment variable, and the hosted LLM.  Threading it keeps
every definition executable. -/
structure Env where
  pdfLoader : String → List Document
  ollamaEmbeddings : OllamaEmbeddings
  groqApiKey : Option String
  groqComplete : String → String

/-- load_pdf of src/main.py: PyPDFLoader(pdf_path).load(), an external
effect supplied by the environment. -/
def load_pdf (env : Env) (pdf_path : String) : List Document :=
  env.pdfLoader pdf_path

/-- initialize_embeddings of src/main.py: OllamaEmbeddings() then
FAISS.from_documents on the chunked documents. -/
def initialize_embeddings (env : Env) (documents : List Document) : FAISS :=
  let embeddings := env.ollamaEmbeddings
  let db := FAISS.from_documents documents embeddings
  db

/-- The ChatGroq client object. -/
structure ChatGroq where
  groq_api_key : Option String
  model_name : String
  complete : String → String

/-- initialize_llm of src/main.py: ChatGroq with the mixtral model and the
API key from the environment. -/
def initialize_llm (env : Env) : ChatGroq :=
  {groq_api_key := env.groqApiKey, model_name := "mixtral-8x7b-32768",
   complete := env.groqComplete}

/-- A chat prompt template: the template string. -/
structure ChatPromptTemplate where
  template : String
  deriving DecidableEq

/-- ChatPromptTemplate.from_template. -/
def ChatPromptTemplate.from_template (t : String) : ChatPromptTemplate := ⟨t⟩

/-- Simultaneous substitution of the two placeholders of the template, as
Python str.format does on the two f-string fields.  The fuel argument,
called with the length of the template, makes the recursion structural;
each step consumes at least one character. -/
def formatChars (ctx inp : List Char) : Nat → List Char → List Char
  | 0, rest => rest
  | _ + 1, [] => []
  | fuel + 1, c :: rest =>
    if ("{context}".data).isPrefixOf (c :: rest) then
      ctx ++ formatChars ctx inp fuel (List.drop 9 (c :: rest))
    else if ("{input}".data).isPrefixOf (c :: rest) then
      inp ++ formatChars ctx inp fuel (List.drop 7 (c :: rest))
    else c :: formatChars ctx inp fuel rest

/-- Formatting a prompt template with concrete context and input values. -/
def ChatPromptTemplate.format (p : ChatPromptTemplate)
    (context input : String) : String :=
  String.mk
    (formatChars context.data input.data p.template.data.length p.template.data)

/-- The literal template string of create_prompt in src/main.py. -/
def promptTemplateText : String :=
  "\n    You are an assistant who provides answers to the questions of the user. \n    Get the information from the pdf and provide correct and precise answers. \n    If you don\x27t know the answer then say \"I am sorry you might have to contact the college for more info on this XXXXX\"\n    <context>\n    {context}\n    </context>\n    Question: {input}\n    "

/-- create_prompt of src/main.py. -/
def create_prompt : ChatPromptTemplate :=
  ChatPromptTemplate.from_template promptTemplateText

/-- Document formatting of the stuff-documents chain: page contents joined
by the default document separator (a blank line). -/
def formatDocs : List Document → String
  | [] => ""
  | [d] => d.pageContent
  | d :: rest => d.pageContent ++ "\n\n" ++ formatDocs rest

/-- create_stuff_documents_chain: format the documents into the context
slot of the prompt and call the LLM on the formatted prompt. -/
def create_stuff_documents_chain (llm : ChatGroq)
    (prompt : ChatPromptTemplate) : List Document → String → String :=
  fun docs input => llm.complete (prompt.format (formatDocs docs) input)

/-- The dictionary passed to retrieval_chain.invoke. -/
structure ChainInput where
  input : String
  deriving DecidableEq

/-- The dictionary returned by the retrieval chain: the original input, the
retrieved context documents, and the answer field. -/
structure ChainResponse where
  input : String
  context : List Document
  answer : String
  deriving DecidableEq

/-- A retrieval chain: its invoke method. -/
structure RetrievalChain where
  invoke : ChainInput → ChainResponse

/-- create_retrieval_chain: retrieve documents for the input, run the
combine-documents chain on them, and return input, context and answer. -/
def create_retrieval_chain (retriever : String → List Document)
    (combineDocsChain : List Document → String → String) : RetrievalChain :=
  ⟨fun inp =>
    let docs := retriever inp.input
    {input := inp.input, context := docs,
     answer := combineDocsChain docs inp.input}⟩

/-- create_chains of src/main.py: stuff-documents chain plus retriever,
composed into a retrieval chain. -/
def create_chains (llm : ChatGroq) (prompt : ChatPromptTemplate)
    (db : FAISS) : RetrievalChain :=
  let doc_chain := create_stuff_documents_chain llm prompt
  let retriever := db.as_retriever
  let retrieval_chain := create_retrieval_chain retriever doc_chain
  retrieval_chain

/-- process_question of src/main.py: invoke the chain on the question and
return the answer field of the response. -/
def process_question (retrieval_chain : RetrievalChain)
    (question : String) : String :=
  (retrieval_chain.invoke {input := question}).answer

/-- preload_data of src/main.py: load the PDF, split it into chunks, and
build the FAISS index from the chunks. -/
def preload_data (env : Env) (pdf_path : String) : FAISS :=
  let docs := load_pdf env pdf_path
  let documents := split_documents docs
  let db := initialize_embeddings env documents
  db

/-- One question-answer pair of the chat history. -/
structure ChatEntry where
  question : String
  answer : String
  deriving DecidableEq

/-- The Streamlit session state: the selected path, the stored index, and
the chat history; an absent key is modelled as none. -/
structure SessionState where
  pdf_path : Option String
  db : Option FAISS
  chat_history : Option (List ChatEntry)

/-- The five sidebar buttons, named after the keys of the pdf_paths
dictionary of run_streamlit. -/
inductive DocButton
  | college_info
  | seatsmatrix
  | admission_process
  | Cutoff
  | fees
  deriving DecidableEq

/-- The pdf_paths dictionary of run_streamlit. -/
def pdf_paths : DocButton → String
  | .college_info => "about_college.pdf"
  | .seatsmatrix => "seatsmatrix.pdf"
  | .admission_process => "admissionprocess.pdf"
  | .Cutoff => "cuttoffs.pdf"
  | .fees => "feesstructure.pdf"

/-- The user interaction of one script run: nothing, one sidebar button
click, or the Send button with the current text input. -/
inductive Event
  | noEvent
  | select (b : DocButton)
  | send (question : String)
  deriving DecidableEq

/-- The observable effects of one script run: the warning shown, whether
the LLM was initialized and the chain invoked, the answer produced, and the
chat history rendered. -/
structure RunOutput where
  warning : Option String := none
  llmInvoked : Bool := false
  answer : Option String := none
  rendered : List ChatEntry := []
  deriving DecidableEq

/-- A script run in which a sidebar button was clicked: set pdf_path, pop
the stored db, store the freshly preloaded index, and rerun (so the chat
section is not executed on this run). -/
def stepSelect (env : Env) (st : SessionState) (b : DocButton) :
    SessionState × RunOutput :=
  let path := pdf_paths b
  let st1 := {st with pdf_path := some path}
  let st2 := {st1 with db := none}
  ({st2 with db := some (preload_data env path)}, {})

/-- The chat section of a script run with no button click: skipped when no
PDF is selected; otherwise materialize the chat history key, render the
history, and handle a Send of a nonempty question, answering when an index
is stored and warning otherwise. -/
def stepChat (env : Env) (st : SessionState) (q : Option String) :
    SessionState × RunOutput :=
  match st.pdf_path with
  | none => (st, {})
  | some _ =>
    let hist := st.chat_history.getD []
    let st1 := {st with chat_history := some hist}
    match q with
    | none => (st1, {rendered := hist})
    | some question =>
      if question = "" then (st1, {rendered := hist})
      else
        match st1.db with
        | some db =>
          let llm := initialize_llm env
          let prompt := create_prompt
          let retrieval_chain := create_chains llm prompt db
          let answer := process_question retrieval_chain question
          ({st1 with
              chat_history := some (hist ++ [{question := question, answer := answer}])},
           {rendered := hist, llmInvoked := true, answer := some answer})
        | none =>
          (st1, {rendered := hist, warning := some "Please select a category first."})

/-- One full script run of run_streamlit for a given interaction. -/
def step (env : Env) (st : SessionState) (ev : Event) :
    SessionState × RunOutput :=
  match ev with
  | .select b => stepSelect env st b
  | .noEvent => stepChat env st none
  | .send question => stepChat env st (some question)

/-- The session state of a fresh session: no key is present, and the first
run materializes pdf_path as None. -/
def initState : SessionState :=
  {pdf_path := none, db := none, chat_history := none}

/-- The session state after a sequence of script runs of a fresh session. -/
def execTrace (env : Env) (evs : List Event) : SessionState :=
  evs.foldl (fun s e => (step env s e).1) initState

/-- Substring test (on the underlying character lists). -/
def containsSub (s sub : String) : Bool :=
  occursInChars sub.data s.data

/-- The six values pdf_path can hold: absent-as-None and the five paths of
the pdf_paths dictionary. -/
def allowedPaths : List (Option String) :=
  [none, some "about_college.pdf", some "seatsmatrix.pdf",
   some "admissionprocess.pdf", some "cuttoffs.pdf", some "feesstructure.pdf"]

/-- Two consecutive windows of the merge loop share an overlap: a suffix of
the earlier window that is a prefix of the later one, of total length at
most the overlap budget. -/
def overlapLe (co : Nat) (w1 w2 : List String) : Prop :=
  ∃ o t u, w1 = t ++ o ∧ w2 = o ++ u ∧ sumLen o ≤ co

/-- A concrete environment (empty PDF, trivial embedding server, constant
LLM) used to evaluate the step function on closed inputs. -/
def sampleEnv : Env :=
  {pdfLoader := fun _ => [],
   ollamaEmbeddings :=
     {embedQuery := fun _ => [],
      embedDocuments := fun texts => texts.map fun _ => []},
   groqApiKey := none,
   groqComplete := fun _ => "sample answer"}

/-- A state with a selected category but no stored index, exercising the
warning path of the Send handler. -/
def sampleNoDb : SessionState :=
  {pdf_path := some "about_college.pdf", db := none, chat_history := some []}

/-- The state of a fresh session right after clicking the Fees Structure
button. -/
def sampleSelected : SessionState :=
  (step sampleEnv initState (.select .fees)).1

/-! ## Lemmas about the text splitter -/

theorem sumLen_nil : sumLen [] = 0 := rfl

theorem sumLen_cons (s : String) (l : List String) :
    sumLen (s :: l) = s.length + sumLen l := by
  simp [sumLen]

theorem sumLen_append (a b : List String) :
    sumLen (a ++ b) = sumLen a + sumLen b := by
  simp [sumLen]

theorem length_concatAll (l : List String) :
    (concatAll l).length = sumLen l := by
  induction l with
  | nil => rfl
  | cons s r ih => simp [concatAll, sumLen_cons, ih, String.length_append]

theorem dropWhile_length_le {α : Type} (p : α → Bool) (l : List α) :
    (l.dropWhile p).length ≤ l.length := by
  induction l with
  | nil => simp [List.dropWhile]
  | cons a l ih =>
    rw [List.dropWhile]
    split
    · exact Nat.le_succ_of_le ih
    · exact Nat.le_refl _

theorem length_pyStrip (s : String) : (pyStrip s).length ≤ s.length := by
  show (((s.data.dropWhile pyIsSpace).reverse.dropWhile pyIsSpace).reverse).length
      ≤ s.data.length
  rw [List.length_reverse]
  calc ((s.data.dropWhile pyIsSpace).reverse.dropWhile pyIsSpace).length
      ≤ (s.data.dropWhile pyIsSpace).reverse.length := dropWhile_length_le _ _
    _ = (s.data.dropWhile pyIsSpace).length := List.length_reverse _
    _ ≤ s.data.length := dropWhile_length_le _ _

theorem popWindow_sumLen_le (co cs dl : Nat) (l : List String) :
    sumLen (popWindow co cs dl l) ≤ co := by
  induction l with
  | nil => simp [popWindow, sumLen]
  | cons x xs ih =>
    rw [popWindow]
    split
    · exact ih
    · rename_i hstop
      rw [not_or] at hstop
      exact Nat.le_of_not_lt hstop.1

theorem popWindow_fits (co cs dl : Nat) (l : List String) :
    sumLen (popWindow co cs dl l) + dl ≤ cs ∨ sumLen (popWindow co cs dl l) = 0 := by
  induction l with
  | nil => right; rfl
  | cons x xs ih =>
    rw [popWindow]
    split
    · exact ih
    · rename_i hstop
      rw [not_or, not_and_or] at hstop
      rcases hstop.2 with h | h
      · left; omega
      · right; omega

theorem popWindow_suffix (co cs dl : Nat) (l : List String) :
    ∃ t, l = t ++ popWindow co cs dl l := by
  induction l with
  | nil => exact ⟨[], rfl⟩
  | cons x xs ih =>
    rw [popWindow]
    split
    · obtain ⟨t, ht⟩ := ih
      exact ⟨x :: t, by rw [List.cons_append, ← ht]⟩
    · exact ⟨[], rfl⟩

theorem mergeWindows_sumLen {cs co : Nat} :
    ∀ (splits cur : List String), (∀ d ∈ splits, d.length ≤ cs) →
    sumLen cur ≤ cs → ∀ w ∈ mergeWindows cs co cur splits, sumLen w ≤ cs := by
  intro splits
  induction splits with
  | nil =>
    intro cur _ hcur w hw
    simp only [mergeWindows, List.mem_singleton] at hw
    exact hw ▸ hcur
  | cons d ds ih =>
    intro cur h hcur w hw
    have hd : d.length ≤ cs := h d (List.mem_cons_self d ds)
    have hds : ∀ x ∈ ds, x.length ≤ cs := fun x hx => h x (List.mem_cons_of_mem _ hx)
    rw [mergeWindows] at hw
    split at hw
    · rcases List.mem_cons.mp hw with rfl | hw'
      · exact hcur
      · refine ih _ hds ?_ w hw'
        rw [sumLen_append, sumLen_cons, sumLen_nil]
        rcases popWindow_fits co cs d.length cur with hfit | hzero
        · omega
        · omega
    · rename_i hcond
      rw [not_and_or] at hcond
      refine ih _ hds ?_ w hw
      rw [sumLen_append, sumLen_cons, sumLen_nil]
      rcases hcond with hle | hnil
      · omega
      · have : cur = [] := by
          by_contra hne
          exact hnil hne
        rw [this, sumLen_nil]
        omega

theorem mergeSplits_len {cs co : Nat} (splits : List String)
    (h : ∀ d ∈ splits, d.length ≤ cs) :
    ∀ c ∈ mergeSplits cs co splits, c.length ≤ cs := by
  intro c hc
  unfold mergeSplits at hc
  rcases List.mem_filter.mp hc with ⟨hm, _⟩
  rcases List.mem_map.mp hm with ⟨w, hw, rfl⟩
  calc (pyStrip (concatAll w)).length
      ≤ (concatAll w).length := length_pyStrip _
    _ = sumLen w := length_concatAll w
    _ ≤ cs := mergeWindows_sumLen splits [] h (by rw [sumLen_nil]; omega) w hw

theorem gather_len {cs co : Nat} (g : String → List String)
    (hg : ∀ p c, c ∈ g p → c.length ≤ cs) :
    ∀ (pieces good : List String), (∀ x ∈ good, x.length ≤ cs) →
    ∀ c ∈ gather cs co (some g) good pieces, c.length ≤ cs := by
  intro pieces
  induction pieces with
  | nil =>
    intro good hgood c hc
    rw [gather] at hc
    split at hc
    · simp at hc
    · exact mergeSplits_len good hgood c hc
  | cons p ps ih =>
    intro good hgood c hc
    rw [gather] at hc
    split at hc
    · rename_i hp
      refine ih (good ++ [p]) ?_ c hc
      intro x hx
      rcases List.mem_append.mp hx with hx' | hx'
      · exact hgood x hx'
      · rw [List.mem_singleton.mp hx']
        omega
    · rw [List.mem_append, List.mem_append] at hc
      rcases hc with (hc | hc) | hc
      · split at hc
        · simp at hc
        · exact mergeSplits_len good hgood c hc
      · exact hg p c hc
      · exact ih [] (by simp) c hc

theorem splitText_len {cs co : Nat} :
    ∀ seps : List String, "" ∈ seps → 0 < cs →
    ∀ text c, c ∈ splitText cs co seps text → c.length ≤ cs := by
  intro seps
  induction seps with
  | nil => intro h; simp at h
  | cons sep rest ih =>
    intro hmem hcs text c hc
    simp only [splitText] at hc
    by_cases hsep : sep = ""
    · rw [if_pos hsep] at hc
      refine mergeSplits_len _ ?_ c hc
      intro d hd
      unfold charSplit at hd
      rcases List.mem_map.mp hd with ⟨ch, _, rfl⟩
      have : (String.mk [ch]).length = 1 := rfl
      omega
    · rw [if_neg hsep] at hc
      have hrest : "" ∈ rest := by
        rcases List.mem_cons.mp hmem with h | h
        · exact absurd h.symm hsep
        · exact h
      have hrne : rest ≠ [] := by
        intro h
        rw [h] at hrest
        simp at hrest
      rw [if_neg hrne] at hc
      split at hc
      · exact gather_len (splitText cs co rest)
          (fun p c hc => ih hrest hcs p c hc) _ [] (by simp) c hc
      · exact ih hrest hcs text c hc

theorem split_documents_len (docs : List Document) :
    ∀ c ∈ split_documents docs, c.pageContent.length ≤ 1000 := by
  intro c hc
  unfold split_documents RecursiveCharacterTextSplitter.split_documents at hc
  rcases List.mem_flatMap.mp hc with ⟨doc, _, hcm⟩
  rcases List.mem_map.mp hcm with ⟨chunk, hchunk, rfl⟩
  exact splitText_len defaultSeparators (by simp [defaultSeparators])
    (by omega) doc.pageContent chunk hchunk

theorem mergeWindows_cons_shape {cs co : Nat} :
    ∀ (splits cur : List String),
    ∃ ext ws, mergeWindows cs co cur splits = (cur ++ ext) :: ws := by
  intro splits
  induction splits with
  | nil => exact fun cur => ⟨[], [], by simp [mergeWindows]⟩
  | cons d ds ih =>
    intro cur
    rw [mergeWindows]
    split
    · exact ⟨[], mergeWindows cs co (popWindow co cs d.length cur ++ [d]) ds, by simp⟩
    · obtain ⟨ext, ws, heq⟩ := ih (cur ++ [d])
      exact ⟨[d] ++ ext, ws, by rw [heq, List.append_assoc]⟩

theorem mergeWindows_chain {cs co : Nat} :
    ∀ (splits cur : List String),
    List.Chain' (overlapLe co) (mergeWindows cs co cur splits) := by
  intro splits
  induction splits with
  | nil => exact fun cur => List.chain'_singleton cur
  | cons d ds ih =>
    intro cur
    rw [mergeWindows]
    split
    · rw [List.chain'_cons']
      refine ⟨?_, ih _⟩
      intro y hy
      obtain ⟨ext, ws, heq⟩ := mergeWindows_cons_shape ds (popWindow co cs d.length cur ++ [d])
      rw [heq] at hy
      simp only [List.head?_cons, Option.mem_def, Option.some.injEq] at hy
      obtain ⟨t, ht⟩ := popWindow_suffix co cs d.length cur
      refine ⟨popWindow co cs d.length cur, t, [d] ++ ext, ht, ?_, popWindow_sumLen_le co cs d.length cur⟩
      rw [← hy, List.append_assoc]
    · exact ih (cur ++ [d])

/-- C7: split_documents always splits with chunk_size 1000 and
chunk_overlap 200; every produced chunk has at most 1000 characters; and
the merge loop carries at most 200 characters of a window over into the
next one (the overlap between consecutive chunks, stated on the windows the
chunks are joined from, since an overlap bound is exactly a bound on the
carried-over window). -/
theorem c7_chunk_parameters :
    (∀ docs : List Document, split_documents docs =
      RecursiveCharacterTextSplitter.split_documents
        {chunk_size := 1000, chunk_overlap := 200} docs) ∧
    (∀ (docs : List Document) c, c ∈ split_documents docs →
      c.pageContent.length ≤ 1000) ∧
    (∀ splits : List String,
      List.Chain' (overlapLe 200) (mergeWindows 1000 200 [] splits)) := by
  refine ⟨fun docs => rfl, split_documents_len, fun splits => mergeWindows_chain splits []⟩

/-- C7 witness: the theorem applied at a concrete one-document list whose
single chunk is the whole text. -/
theorem c7_chunk_parameters_witness :
    (⟨"hello world", []⟩ : Document) ∈
      split_documents [(⟨"hello world", []⟩ : Document)] ∧
    ("hello world" : String).length ≤ 1000 :=
  ⟨by decide,
   c7_chunk_parameters.2.1 [(⟨"hello world", []⟩ : Document)]
     (⟨"hello world", []⟩ : Document) (by decide)⟩

/-! ## The prompt template -/

/-- C2 counterexample: the template of create_prompt contains no
exclusivity instruction: neither the word only nor the word solely occurs
in it, and its actual instruction line tells the model to get the
information from the pdf, not solely from the supplied context passages. -/
theorem c2_counterexample :
    containsSub promptTemplateText "only" = false ∧
    containsSub promptTemplateText "solely" = false ∧
    containsSub promptTemplateText "Get the information from the pdf" = true := by
  refine ⟨by decide, by decide, by decide⟩

/-- C2 (amended): the prompt string sent to the LLM is the fixed template
with the retrieved passages substituted for the context placeholder inside
a context block; the template instructs the model to get the information
from the pdf and states the fixed fallback sentence for when it does not
know the answer; it contains no explicit restriction to use solely the
supplied context. -/
theorem c2_prompt_grounding :
    create_prompt.template = promptTemplateText ∧
    containsSub promptTemplateText "<context>" = true ∧
    containsSub promptTemplateText "{context}" = true ∧
    containsSub promptTemplateText
      "Get the information from the pdf and provide correct and precise answers" = true ∧
    containsSub promptTemplateText
      "If you don\x27t know the answer then say \"I am sorry you might have to contact the college for more info on this XXXXX\"" = true ∧
    (∀ (llm : ChatGroq) (prompt : ChatPromptTemplate)
       (docs : List Document) (input : String),
      create_stuff_documents_chain llm prompt docs input =
        llm.complete (prompt.format (formatDocs docs) input)) :=
  ⟨rfl, by decide, by decide, by decide, by decide,
   fun _ _ _ _ => rfl⟩

/-! ## The ingestion pipeline -/

/-- C3: preload_data loads the PDF at the selected path, splits the loaded
documents into chunks, embeds exactly those chunks and builds the FAISS
index from them; and a document selection stores exactly that index. -/
theorem c3_ingestion_pipeline :
    (∀ (env : Env) (p : String),
      preload_data env p =
        initialize_embeddings env (split_documents (load_pdf env p))) ∧
    (∀ (env : Env) (p : String),
      (preload_data env p).docs = split_documents (load_pdf env p)) ∧
    (∀ (env : Env) (p : String),
      (preload_data env p).index =
        env.ollamaEmbeddings.embedDocuments
          ((split_documents (load_pdf env p)).map Document.pageContent)) ∧
    (∀ (env : Env) (st : SessionState) (b : DocButton),
      (step env st (.select b)).1.db = some (preload_data env (pdf_paths b))) :=
  ⟨fun _ _ => rfl, fun _ _ => rfl, fun _ _ => rfl, fun _ _ _ => rfl⟩

/-- C5: selecting any document button replaces the stored index: the
resulting db is exactly the index preloaded from the newly selected path,
it does not depend on the previous db (popping it first is the same as
starting from a state without one), and it is derived from the chunks of
the newly selected PDF alone. -/
theorem c5_select_replaces_index :
    ∀ (env : Env) (st : SessionState) (b : DocButton),
    (step env st (.select b)).1.db = some (preload_data env (pdf_paths b)) ∧
    (∀ st' : SessionState,
      (step env st (.select b)).1.db = (step env st' (.select b)).1.db) ∧
    stepSelect env st b = stepSelect env {st with db := none} b ∧
    (preload_data env (pdf_paths b)).docs =
      split_documents (load_pdf env (pdf_paths b)) :=
  fun _ _ _ => ⟨rfl, fun _ => rfl, rfl, rfl⟩

/-! ## The session-state machine -/

theorem step_pdf_path_cases (env : Env) (st : SessionState) (ev : Event) :
    (step env st ev).1.pdf_path = st.pdf_path ∨
    ∃ b, ev = Event.select b ∧ (step env st ev).1.pdf_path = some (pdf_paths b) := by
  cases ev with
  | select b => exact Or.inr ⟨b, rfl, rfl⟩
  | noEvent =>
    left
    unfold step stepChat
    rcases h : st.pdf_path with _ | p <;> simp [h]
  | send q =>
    left
    unfold step stepChat
    rcases h : st.pdf_path with _ | p
    · simp [h]
    · simp only [h]
      split
      · rfl
      · split <;> rfl

theorem foldl_pdf_path_allowed (env : Env) :
    ∀ (evs : List Event) (st : SessionState), st.pdf_path ∈ allowedPaths →
    (evs.foldl (fun s e => (step env s e).1) st).pdf_path ∈ allowedPaths := by
  intro evs
  induction evs with
  | nil => exact fun st h => h
  | cons e es ih =>
    intro st h
    rw [List.foldl_cons]
    refine ih _ ?_
    rcases step_pdf_path_cases env st e with heq | ⟨b, _, heq⟩
    · rw [heq]; exact h
    · rw [heq]; cases b <;> simp [pdf_paths, allowedPaths]

/-- C4: in every reachable state, pdf_path is either None or one of exactly
the five predefined paths of the pdf_paths dictionary; no other document
can ever be selected. -/
theorem c4_fixed_document_paths (env : Env) (evs : List Event) :
    (execTrace env evs).pdf_path ∈ allowedPaths :=
  foldl_pdf_path_allowed env evs initState (by simp [initState, allowedPaths])

theorem trace_select_source (env : Env) :
    ∀ (evs : List Event) (st : SessionState) (p : String),
    (evs.foldl (fun s e => (step env s e).1) st).pdf_path = some p →
    st.pdf_path = some p ∨ ∃ b, Event.select b ∈ evs ∧ pdf_paths b = p := by
  intro evs
  induction evs with
  | nil => exact fun st p h => Or.inl h
  | cons e es ih =>
    intro st p h
    rw [List.foldl_cons] at h
    rcases ih _ p h with h' | ⟨b, hb, hp⟩
    · rcases step_pdf_path_cases env st e with heq | ⟨b, hev, heq⟩
      · left; rw [← heq]; exact h'
      · right
        refine ⟨b, ?_, ?_⟩
        · rw [hev]; exact List.mem_cons_self _ _
        · rw [heq] at h'
          exact Option.some.inj h'
    · exact Or.inr ⟨b, List.mem_cons_of_mem _ hb, hp⟩

/-- C6: the question flow is gated on a selection: a Send in a state with
no selected PDF changes nothing and produces no output; the LLM is only
ever invoked when a PDF is selected; and whenever a reachable state has a
selected path, some earlier event selected one of the fixed documents with
exactly that path. -/
theorem c6_selection_precedes_questions :
    (∀ (env : Env) (st : SessionState) (q : String),
      st.pdf_path = none → step env st (.send q) = (st, {})) ∧
    (∀ (env : Env) (st : SessionState) (ev : Event),
      (step env st ev).2.llmInvoked = true → st.pdf_path ≠ none) ∧
    (∀ (env : Env) (evs : List Event) (p : String),
      (execTrace env evs).pdf_path = some p →
      ∃ b, Event.select b ∈ evs ∧ pdf_paths b = p) := by
  refine ⟨?_, ?_, ?_⟩
  · intro env st q h
    unfold step stepChat
    rw [h]
  · intro env st ev h hnone
    cases ev with
    | select b => simp [step, stepSelect] at h
    | noEvent => simp [step, stepChat, hnone] at h
    | send q => simp [step, stepChat, hnone] at h
  · intro env evs p h
    rcases trace_select_source env evs initState p h with h' | hb
    · exact absurd h' (by simp [initState])
    · exact hb

/-- C6 witness: a Send before any selection is a no-op, and the selection
event of a one-step trace that ends with the fees path selected is the
fees button. -/
theorem c6_selection_precedes_questions_witness :
    step sampleEnv initState (.send "ping") = (initState, {}) ∧
    sampleSelected.pdf_path ≠ none ∧
    ∃ b, Event.select b ∈ [Event.select DocButton.fees] ∧
      pdf_paths b = "feesstructure.pdf" :=
  ⟨c6_selection_precedes_questions.1 sampleEnv initState "ping" rfl,
   c6_selection_precedes_questions.2.1 sampleEnv sampleSelected
     (.send "hi") rfl,
   c6_selection_precedes_questions.2.2 sampleEnv [Event.select DocButton.fees]
     "feesstructure.pdf" rfl⟩

/-- C8: pressing Send with a nonempty question while no index is stored
shows the fixed warning, does not invoke the LLM or the chain, produces no
answer, and leaves the state unchanged apart from materializing the chat
history key (exactly unchanged when the key is already present). -/
theorem c8_warning_without_index (env : Env) (st : SessionState) (q p : String)
    (hp : st.pdf_path = some p) (hq : q ≠ "") (hdb : st.db = none) :
    (step env st (.send q)).2.warning = some "Please select a category first." ∧
    (step env st (.send q)).2.llmInvoked = false ∧
    (step env st (.send q)).2.answer = none ∧
    (step env st (.send q)).1 =
      {st with chat_history := some (st.chat_history.getD [])} ∧
    (∀ h, st.chat_history = some h → (step env st (.send q)).1 = st) := by
  have hstep : step env st (.send q) =
      ({st with chat_history := some (st.chat_history.getD [])},
       {rendered := st.chat_history.getD [],
        warning := some "Please select a category first."}) := by
    unfold step stepChat
    simp only [hp, if_neg hq, hdb]
  rw [hstep]
  refine ⟨rfl, rfl, rfl, rfl, ?_⟩
  intro h hh
  rw [hh]
  show ({st with chat_history := some h} : SessionState) = st
  rw [← hh]

/-- C8 witness: the theorem applied at a concrete state with a selected
path, an empty stored history, and no index. -/
theorem c8_warning_without_index_witness :
    (step sampleEnv sampleNoDb (.send "hi")).2.warning =
      some "Please select a category first." ∧
    (step sampleEnv sampleNoDb (.send "hi")).1 = sampleNoDb := by
  have h := c8_warning_without_index sampleEnv sampleNoDb "hi"
    "about_college.pdf" rfl (by decide) rfl
  exact ⟨h.1, h.2.2.2.2 [] rfl⟩

/-- C9: the question flow is append-only: a Send never changes pdf_path or
the stored index, extends the history by at most one entry, appends exactly
one question-answer pair when an answer is produced, and leaves the history
content unchanged otherwise; a plain rerun changes nothing either. -/
theorem c9_history_append_only :
    (∀ (env : Env) (st : SessionState) (q : String),
      (step env st (.send q)).1.pdf_path = st.pdf_path ∧
      (step env st (.send q)).1.db = st.db ∧
      (∃ t, (step env st (.send q)).1.chat_history.getD [] =
          st.chat_history.getD [] ++ t ∧ t.length ≤ 1) ∧
      (∀ a, (step env st (.send q)).2.answer = some a →
        (step env st (.send q)).1.chat_history =
          some (st.chat_history.getD [] ++ [{question := q, answer := a}])) ∧
      ((step env st (.send q)).2.answer = none →
        (step env st (.send q)).1.chat_history.getD [] =
          st.chat_history.getD [])) ∧
    (∀ (env : Env) (st : SessionState),
      (step env st .noEvent).1.pdf_path = st.pdf_path ∧
      (step env st .noEvent).1.db = st.db ∧
      (step env st .noEvent).1.chat_history.getD [] =
        st.chat_history.getD []) := by
  constructor
  · intro env st q
    obtain ⟨pp, sdb, hist⟩ := st
    cases pp with
    | none =>
      exact ⟨rfl, rfl, ⟨[], by rw [List.append_nil]; exact rfl, by simp⟩,
        fun a ha => Option.noConfusion ha, fun _ => rfl⟩
    | some p =>
      unfold step stepChat
      dsimp only
      split
      · exact ⟨rfl, rfl, ⟨[], by rw [List.append_nil]; exact rfl, by simp⟩,
          fun a ha => Option.noConfusion ha, fun _ => rfl⟩
      · cases sdb with
        | some db =>
          refine ⟨rfl, rfl, ⟨_, rfl, by simp⟩, ?_,
            fun hnone => Option.noConfusion hnone⟩
          intro a ha
          injection ha with ha'
          rw [← ha']
        | none =>
          exact ⟨rfl, rfl, ⟨[], by rw [List.append_nil]; exact rfl, by simp⟩,
            fun a ha => Option.noConfusion ha, fun _ => rfl⟩
  · intro env st
    obtain ⟨pp, sdb, hist⟩ := st
    cases pp with
    | none => exact ⟨rfl, rfl, rfl⟩
    | some p => exact ⟨rfl, rfl, rfl⟩

/-- C9 witness: sending a question in a freshly selected state appends
exactly the answered pair. -/
theorem c9_history_append_only_witness :
    (step sampleEnv sampleSelected (.send "hi")).1.chat_history =
      some (sampleSelected.chat_history.getD [] ++
        [{question := "hi", answer := "sample answer"}]) :=
  (c9_history_append_only.1 sampleEnv sampleSelected "hi").2.2.2.1
    "sample answer" rfl

/-- C1: process_question returns exactly the answer field of the chain
response; the chain built by create_chains is the retrieval chain over the
FAISS retriever and the stuff-documents chain; unfolding it, the answer is
the LLM completion of the prompt formatted with the retrieved documents;
and on a Send with a stored index the produced and stored answer is exactly
that value. -/
theorem c1_answer_from_chain :
    (∀ (rc : RetrievalChain) (q : String),
      process_question rc q = (rc.invoke {input := q}).answer) ∧
    (∀ (llm : ChatGroq) (prompt : ChatPromptTemplate) (db : FAISS),
      create_chains llm prompt db =
        create_retrieval_chain db.as_retriever
          (create_stuff_documents_chain llm prompt)) ∧
    (∀ (env : Env) (db : FAISS) (q : String),
      process_question (create_chains (initialize_llm env) create_prompt db) q =
        env.groqComplete
          (create_prompt.format (formatDocs (db.as_retriever q)) q)) ∧
    (∀ (env : Env) (st : SessionState) (q : String) (db : FAISS) (p : String),
      st.pdf_path = some p → st.db = some db → q ≠ "" →
      (step env st (.send q)).2.answer =
        some (process_question
          (create_chains (initialize_llm env) create_prompt db) q) ∧
      (step env st (.send q)).1.chat_history =
        some (st.chat_history.getD [] ++
          [{question := q,
            answer := process_question
              (create_chains (initialize_llm env) create_prompt db) q}])) := by
  refine ⟨fun _ _ => rfl, fun _ _ _ => rfl, fun _ _ _ => rfl, ?_⟩
  intro env st q db p hp hdb hq
  have hstep : step env st (.send q) =
      ({st with chat_history := some (st.chat_history.getD [] ++
          [{question := q,
            answer := process_question
              (create_chains (initialize_llm env) create_prompt db) q}])},
       {rendered := st.chat_history.getD [], llmInvoked := true,
        answer := some (process_question
          (create_chains (initialize_llm env) create_prompt db) q)}) := by
    unfold step stepChat
    simp only [hp, if_neg hq, hdb]
  rw [hstep]
  exact ⟨rfl, rfl⟩

/-- C1 witness: the theorem applied in the sample environment right after
selecting the fees document. -/
theorem c1_answer_from_chain_witness :
    (step sampleEnv sampleSelected (.send "hi")).2.answer =
      some (process_question
        (create_chains (initialize_llm sampleEnv) create_prompt
          (preload_data sampleEnv "feesstructure.pdf")) "hi") :=
  (c1_answer_from_chain.2.2.2 sampleEnv sampleSelected "hi"
    (preload_data sampleEnv "feesstructure.pdf") "feesstructure.pdf"
    rfl rfl (by decide)).1

end EnrollEase
